import Mathlib

/-!
Verification of the MinLLM workflow-orchestration engine against its
natural-language specification.

The repository ships Python bindings, tests and examples for a Rust core
(the compiled extension module providing SharedStore, BaseNode, Flow and
the batch/async variants).  The Rust core itself is not part of the
Python sources, so the engine data model and orchestration state machine
below are modelled from the specification (sections 3, 4.1, 4.2, 4.4,
4.5, 4.6, 4.7), while the concrete node subclasses and the package
export lists are translated directly from the Python sources
(examples/python/simple_flow.py, examples/python/batch_flow.py,
python/tests/test_basic.py, python/tests/test_async.py,
python/minllm/__init__.py, python/MinLLM/__init__.py).
-/

namespace MinLLM

/-- Modelled from the spec: the dynamically-typed values held by the
Shared Store, a closed sum type (section 9: string, integer, boolean,
sequence of values, mapping from string to value).  The constructor
`none` stands for the Python None value, which the store returns for an
absent key and which stages may produce or consume. -/
inductive Value where
  | none : Value
  | str : String → Value
  | int : Int → Value
  | bool : Bool → Value
  | list : List Value → Value
  | dict : List (String × Value) → Value
deriving Repr

/-- Decidable structural equality on dynamic values, the equality the
specification asks the closed sum type to keep well-defined for tests
(section 9). -/
def Value.decEq : (v w : Value) → Decidable (v = w)
  | .none, .none => isTrue rfl
  | .str a, .str b =>
    match String.decEq a b with
    | isTrue h => isTrue (by rw [h])
    | isFalse h => isFalse (by intro hc; cases hc; exact h rfl)
  | .int a, .int b =>
    match Int.decEq a b with
    | isTrue h => isTrue (by rw [h])
    | isFalse h => isFalse (by intro hc; cases hc; exact h rfl)
  | .bool a, .bool b =>
    match Bool.decEq a b with
    | isTrue h => isTrue (by rw [h])
    | isFalse h => isFalse (by intro hc; cases hc; exact h rfl)
  | .list a, .list b =>
    match decEqList a b with
    | isTrue h => isTrue (by rw [h])
    | isFalse h => isFalse (by intro hc; cases hc; exact h rfl)
  | .dict a, .dict b =>
    match decEqDict a b with
    | isTrue h => isTrue (by rw [h])
    | isFalse h => isFalse (by intro hc; cases hc; exact h rfl)
  | .none, .str _ => isFalse (by intro hc; cases hc)
  | .none, .int _ => isFalse (by intro hc; cases hc)
  | .none, .bool _ => isFalse (by intro hc; cases hc)
  | .none, .list _ => isFalse (by intro hc; cases hc)
  | .none, .dict _ => isFalse (by intro hc; cases hc)
  | .str _, .none => isFalse (by intro hc; cases hc)
  | .str _, .int _ => isFalse (by intro hc; cases hc)
  | .str _, .bool _ => isFalse (by intro hc; cases hc)
  | .str _, .list _ => isFalse (by intro hc; cases hc)
  | .str _, .dict _ => isFalse (by intro hc; cases hc)
  | .int _, .none => isFalse (by intro hc; cases hc)
  | .int _, .str _ => isFalse (by intro hc; cases hc)
  | .int _, .bool _ => isFalse (by intro hc; cases hc)
  | .int _, .list _ => isFalse (by intro hc; cases hc)
  | .int _, .dict _ => isFalse (by intro hc; cases hc)
  | .bool _, .none => isFalse (by intro hc; cases hc)
  | .bool _, .str _ => isFalse (by intro hc; cases hc)
  | .bool _, .int _ => isFalse (by intro hc; cases hc)
  | .bool _, .list _ => isFalse (by intro hc; cases hc)
  | .bool _, .dict _ => isFalse (by intro hc; cases hc)
  | .list _, .none => isFalse (by intro hc; cases hc)
  | .list _, .str _ => isFalse (by intro hc; cases hc)
  | .list _, .int _ => isFalse (by intro hc; cases hc)
  | .list _, .bool _ => isFalse (by intro hc; cases hc)
  | .list _, .dict _ => isFalse (by intro hc; cases hc)
  | .dict _, .none => isFalse (by intro hc; cases hc)
  | .dict _, .str _ => isFalse (by intro hc; cases hc)
  | .dict _, .int _ => isFalse (by intro hc; cases hc)
  | .dict _, .bool _ => isFalse (by intro hc; cases hc)
  | .dict _, .list _ => isFalse (by intro hc; cases hc)
where
  decEqList : (a b : List Value) → Decidable (a = b)
    | [], [] => isTrue rfl
    | [], _ :: _ => isFalse (by intro hc; cases hc)
    | _ :: _, [] => isFalse (by intro hc; cases hc)
    | x :: xs, y :: ys =>
      match Value.decEq x y, decEqList xs ys with
      | isTrue h1, isTrue h2 => isTrue (by rw [h1, h2])
      | isFalse h1, _ => isFalse (by intro hc; cases hc; exact h1 rfl)
      | _, isFalse h2 => isFalse (by intro hc; cases hc; exact h2 rfl)
  decEqDict : (a b : List (String × Value)) → Decidable (a = b)
    | [], [] => isTrue rfl
    | [], _ :: _ => isFalse (by intro hc; cases hc)
    | _ :: _, [] => isFalse (by intro hc; cases hc)
    | (k1, v1) :: xs, (k2, v2) :: ys =>
      match String.decEq k1 k2, Value.decEq v1 v2, decEqDict xs ys with
      | isTrue h0, isTrue h1, isTrue h2 => isTrue (by rw [h0, h1, h2])
      | isFalse h0, _, _ => isFalse (by intro hc; cases hc; exact h0 rfl)
      | _, isFalse h1, _ => isFalse (by intro hc; cases hc; exact h1 rfl)
      | _, _, isFalse h2 => isFalse (by intro hc; cases hc; exact h2 rfl)

instance : DecidableEq Value := Value.decEq

/-- Modelled from the spec: the Shared Store (section 3), a mutable
mapping from string keys to dynamic values, keys unique, last write
wins.  The mutation history is kept as a list with the newest write in
front; lookup takes the first match, so the last write wins. -/
structure SharedStore where
  entries : List (String × Value)
deriving Repr

/-- Modelled from the spec: a fresh, empty Shared Store as created by the
caller at the start of a run. -/
def SharedStore.empty : SharedStore := ⟨[]⟩

/-- Modelled from the spec: unconditional upsert, no error condition
(section 4.1). -/
def SharedStore.set (s : SharedStore) (k : String) (v : Value) : SharedStore :=
  ⟨(k, v) :: s.entries⟩

/-- Lookup of the most recent write for a key in the entry list. -/
def lookupEntry : List (String × Value) → String → Value
  | [], _ => .none
  | (k2, v) :: rest, k => if k2 = k then v else lookupEntry rest k

/-- Modelled from the spec: pure lookup, never raises; an absent key
reads as the null value (section 4.1). -/
def SharedStore.get (s : SharedStore) (k : String) : Value :=
  lookupEntry s.entries k

/-- Modelled from the spec: the parameter mapping carried by a node
(section 3), same shape as a Shared Store mapping. -/
abbrev Params := List (String × Value)

/-- Modelled from the spec: default prepare stage when a concrete node
does not override it — returns null (section 4.2). -/
def defaultPrep : SharedStore → Params → Value := fun _ _ => .none

/-- Modelled from the spec: default compute stage — returns its input
unchanged (section 4.2). -/
def defaultExec : Value → Value := fun v => v

/-- Modelled from the spec: default finalize stage — performs no
mutation of the store and returns the default action (section 4.2). -/
def defaultPost : SharedStore → Value → Value → SharedStore × Option String :=
  fun s _ _ => (s, some "default")

/-- Modelled from the spec: a graph vertex (section 3) holding the
three-stage execution contract and an action-to-successor mapping.
Successor edges are references; here nodes live in a list and an edge
stores the index of the target node.  A stage left unset falls back to
the inherited default, mirroring a Python subclass that overrides only
some stages. -/
structure FlowNode where
  prep : SharedStore → Params → Value := defaultPrep
  exec : Value → Value := defaultExec
  post : SharedStore → Value → Value → SharedStore × Option String := defaultPost
  successors : List (String × Nat) := []

/-- Modelled from the spec: one visit of a node (section 4.2): prepare
reads the store and the propagated params, compute transforms the
intermediate, finalize may mutate the store and yields the routing
action or null. -/
def runNodeStages (n : FlowNode) (params : Params) (s : SharedStore) :
    SharedStore × Option String :=
  let p := n.prep s params
  let e := n.exec p
  n.post s p e

/-- Lookup of an action in a successor mapping. -/
def lookupSuccessor : List (String × Nat) → String → Option Nat
  | [], _ => Option.none
  | (a, i) :: rest, act => if a = act then some i else lookupSuccessor rest act

/-- Modelled from the spec: the sequential orchestration state machine
(section 4.4).  Starting at the node with index `idx`, execute the
three-stage contract, follow the successor registered for the returned
action, and repeat; a null action or a routing miss terminates the run,
whose result is the last produced action (or null).  The `fuel`
argument bounds the number of steps so the machine is total; every
claim below is settled at a fuel large enough that it never runs out. -/
def runFlowFrom (g : List FlowNode) (params : Params) :
    Nat → Nat → SharedStore → SharedStore × Option String
  | 0, _, s => (s, Option.none)
  | fuel + 1, idx, s =>
    match g[idx]? with
    | Option.none => (s, Option.none)
    | some n =>
      let r := runNodeStages n params s
      match r.2 with
      | Option.none => (r.1, Option.none)
      | some act =>
        match lookupSuccessor n.successors act with
        | Option.none => (r.1, some act)
        | some nxt => runFlowFrom g params fuel nxt r.1

/-- Modelled from the spec: a Flow run starts at the start node, which
is the first node of the graph list here (section 4.4). -/
def runFlow (g : List FlowNode) (params : Params) (fuel : Nat) (s : SharedStore) :
    SharedStore × Option String :=
  runFlowFrom g params fuel 0 s

/-- The Python string method upper, applied characterwise over the
string (all strings in the modelled runs are ASCII, where the Python
method and the characterwise uppercase agree). -/
def pyUpper (s : String) : String := ⟨s.data.map Char.toUpper⟩

/-- Translated from examples/python/simple_flow.py, class InputNode:
prep returns the literal input string, exec uppercases the prepared
string, post stores the compute result under key "uppercase" and
returns "default".  Stage inputs of shapes that cannot occur in the
modelled runs (where Python would raise) map to null. -/
def InputNode : FlowNode where
  prep := fun _ _ => .str "Hello World!"
  exec := fun v =>
    match v with
    | .str s => .str (pyUpper s)
    | _ => .none
  post := fun s _ e => (s.set "uppercase" e, some "default")
  successors := [("default", 1)]

/-- Translated from examples/python/simple_flow.py, class ProcessNode:
prep reads key "uppercase", exec appends three exclamation marks, post
stores the compute result under key "result" and returns "default".
In the two-node chain of the claim it is the final node and has no
successors. -/
def ProcessNode : FlowNode where
  prep := fun s _ => s.get "uppercase"
  exec := fun v =>
    match v with
    | .str s => .str (s ++ "!!!")
    | _ => .none
  post := fun s _ e => (s.set "result" e, some "default")
  successors := []

/-- The two-node chain of the claim: InputNode wired to ProcessNode
under the default action. -/
def simpleFlowChain : List FlowNode := [InputNode, ProcessNode]

/-- Modelled from the spec: merge an iteration parameter mapping over
the flow base params to form the effective per-iteration params
(section 4.5); iteration entries are looked up first, so per-item
values take precedence over flow-level defaults. -/
def mergeParams (base item : Params) : Params := item ++ base

/-- Modelled from the spec: read the ordered sequence of parameter
mappings produced by the batch-preparation hook (section 4.5); a null
or empty result means zero iterations, and each element is expected to
be a mapping. -/
def paramsOfValue : Value → List Params
  | .list items =>
    items.map fun it =>
      match it with
      | .dict d => d
      | _ => []
  | _ => []

/-- Modelled from the spec: Batch Flow run (section 4.5): invoke the
batch-preparation hook, the prepare stage of the start node, to obtain
the parameter mappings; for each mapping in order, merge it over the
flow base params, propagate the effective params to every node visited,
and run the full sequential orchestration of section 4.4 once, sharing
the same Shared Store across all iterations. -/
def runBatchFlow (g : List FlowNode) (baseParams : Params) (fuel : Nat)
    (s : SharedStore) : SharedStore :=
  match g[0]? with
  | Option.none => s
  | some start =>
    let items := paramsOfValue (start.prep s baseParams)
    items.foldl (fun st p => (runFlowFrom g (mergeParams baseParams p) fuel 0 st).1) s

/-- Translated from python/tests/test_async.py, class TestAsyncBatchNode:
an async batch node overriding only the prepare stage, which yields the
three parameter mappings of the claim; the other stages are the
inherited defaults.  The awaits in the source affect timing only, so
the data logic of the stages is what is modelled here. -/
def TestAsyncBatchNode : FlowNode where
  prep := fun _ _ =>
    .list [.dict [("item", .str "apple")],
           .dict [("item", .str "banana")],
           .dict [("item", .str "grape")]]
  successors := [("default", 1)]

/-- Translated from python/tests/test_async.py, class
TestAsyncProcessNode: prep returns the node params, exec formats the
item as a processed string, post appends the compute result to the
results list in the store (reading the current list, with a missing key
read as the empty list) and returns "default". -/
def TestAsyncProcessNode : FlowNode where
  prep := fun _ params => .dict params
  exec := fun v =>
    match v with
    | .dict d =>
      match lookupEntry d "item" with
      | .str s => .str ("Processed " ++ s)
      | _ => .none
    | _ => .none
  post := fun s _ e =>
    let results :=
      match s.get "results" with
      | .list l => l
      | _ => []
    (s.set "results" (.list (results ++ [e])), some "default")
  successors := []

/-- The batch chain of the claim: the batch-preparation node wired to
the formatting-and-aggregating node under the default action. -/
def asyncBatchChain : List FlowNode := [TestAsyncBatchNode, TestAsyncProcessNode]

/-- The list currently stored under a key, the empty list when the key
holds no list. -/
def SharedStore.listAt (s : SharedStore) (k : String) : List Value :=
  match s.get k with
  | .list l => l
  | _ => []

/-- Modelled from the spec: the atomic update primitive of sections 4.7
and 6 — an atomic append keyed by string, executed as one indivisible
step: read the list under the key (starting a fresh list when the key
holds none), append the value, store the list back, with no other
store operation interleaved inside. -/
def SharedStore.atomicAppend (s : SharedStore) (k : String) (v : Value) : SharedStore :=
  match s.get k with
  | .list l => s.set k (.list (l ++ [v]))
  | _ => s.set k (.list [v])

/-- Modelled from the spec: the observable store effect of an Async
Parallel Batch Flow run (section 4.7) in which item i finalizes by
atomically appending its contribution to the shared list under key k.
The per-item tasks are independent except for store access and each
append is one indivisible step, so a whole parallel run is a sequence
of the per-item appends in a scheduler-chosen order: an interleaving is
a list `sched` of item indices, and a complete fair run is a `sched`
that is a permutation of the item indices. -/
def runParallelBatchAppends (k : String) (contribs : List Value)
    (sched : List Nat) (s : SharedStore) : SharedStore :=
  sched.foldl (fun st i => st.atomicAppend k (contribs.getD i .none)) s

/-- Modelled from the spec: an async node (section 4.6): the same
three-stage contract as a node, each stage a suspension point; the
delay fields model the time a stage spends suspended, which never
enters the data computed by the stages. -/
structure AsyncFlowNode where
  prepDelay : Nat := 0
  execDelay : Nat := 0
  postDelay : Nat := 0
  prep : SharedStore → Params → Value := defaultPrep
  exec : Value → Value := defaultExec
  post : SharedStore → Value → Value → SharedStore × Option String := defaultPost
  successors : List (String × Nat) := []

/-- The synchronous node with the same stage logic as an async node:
the delays, which only model suspension timing, are erased. -/
def AsyncFlowNode.toSync (n : AsyncFlowNode) : FlowNode :=
  { prep := n.prep, exec := n.exec, post := n.post, successors := n.successors }

/-- Modelled from the spec: one visit of an async node: the stages run
in prepare-compute-finalize order on a single chain of suspensions
(section 4.6), and the time spent suspended accumulates alongside the
data results. -/
def runAsyncNodeStages (n : AsyncFlowNode) (params : Params) (s : SharedStore) :
    (SharedStore × Option String) × Nat :=
  let p := n.prep s params
  let e := n.exec p
  (n.post s p e, n.prepDelay + n.execDelay + n.postDelay)

/-- Modelled from the spec: the Async Flow orchestration (section 4.6),
the identical state machine to section 4.4 run as one cooperative task;
`t` accumulates the total time the run spends suspended. -/
def runAsyncFlowFrom (g : List AsyncFlowNode) (params : Params) :
    Nat → Nat → SharedStore → Nat → (SharedStore × Option String) × Nat
  | 0, _, s, t => ((s, Option.none), t)
  | fuel + 1, idx, s, t =>
    match g[idx]? with
    | Option.none => ((s, Option.none), t)
    | some n =>
      let r := runAsyncNodeStages n params s
      let t2 := t + r.2
      match r.1.2 with
      | Option.none => ((r.1.1, Option.none), t2)
      | some act =>
        match lookupSuccessor n.successors act with
        | Option.none => ((r.1.1, some act), t2)
        | some nxt => runAsyncFlowFrom g params fuel nxt r.1.1 t2

/-- Modelled from the spec: the wiring state built during graph
construction (section 4.3): nodes are identified by index and each
add_successor call records one action-labelled edge. -/
structure Wiring where
  edges : List (Nat × String × Nat) := []

/-- Modelled from the spec: add_successor registers `node` under
`action` on `self` and returns `node` (section 4.3).  The operator
forms of the bindings, node >> next and node - "action" >> next, reduce
to this call with the default and the selected action respectively. -/
def addSuccessor (w : Wiring) (self node : Nat) (action : String) : Wiring × Nat :=
  (⟨(self, action, node) :: w.edges⟩, node)

/-- Lookup of the successor registered for a node under an action in
the wiring state (newest registration first). -/
def wiringLookup : List (Nat × String × Nat) → Nat → String → Option Nat
  | [], _, _ => Option.none
  | (a, act, b) :: rest, self, action =>
    if a = self then
      if act = action then some b else wiringLookup rest self action
    else wiringLookup rest self action

/-- A left-to-right chain of default-action add_successor calls, as
built by the chaining syntax a >> b >> c: each call registers the next
node on the value of the previous call and evaluates to the node just
added. -/
def chainDefault (w : Wiring) (start : Nat) (rest : List Nat) : Wiring × Nat :=
  rest.foldl (fun acc nxt => addSuccessor acc.1 acc.2 nxt "default") (w, start)

/-- Translated from python/minllm/__init__.py, lines 8 to 22: the names
the package imports from the compiled core module. -/
def minllm_imported_names : List String :=
  ["BaseNode", "Node", "BatchNode", "Flow", "BatchFlow",
   "AsyncNode", "AsyncBatchNode", "AsyncParallelBatchNode",
   "AsyncFlow", "AsyncBatchFlow", "AsyncParallelBatchFlow"]

/-- Translated from python/minllm/__init__.py, lines 24 to 36: the
export list of the package. -/
def minllm_all : List String :=
  ["BaseNode", "Node", "BatchNode", "Flow", "BatchFlow",
   "AsyncNode", "AsyncBatchNode", "AsyncParallelBatchNode",
   "AsyncFlow", "AsyncBatchFlow", "AsyncParallelBatchFlow"]

/-- Translated from python/MinLLM/__init__.py, lines 4 to 18: the names
the sibling MinLLM package imports from minllm. -/
def MinLLM_requested_names : List String :=
  ["SharedStore", "BaseNode", "Node", "BatchNode", "Flow", "BatchFlow",
   "AsyncNode", "AsyncBatchNode", "AsyncParallelBatchNode",
   "AsyncFlow", "AsyncBatchFlow", "AsyncParallelBatchFlow",
   "_ConditionalTransition"]

/-- Translated from python/tests/test_basic.py, line 7: the names the
basic test suite imports from minllm. -/
def test_basic_imported_names : List String :=
  ["SharedStore", "BaseNode", "Node", "Flow"]

/-!  Helper lemmas shared by the claim theorems.  -/

/-- Reading a key back immediately after writing it returns the written
value. -/
theorem SharedStore.get_set_self (s : SharedStore) (k : String) (v : Value) :
    (s.set k v).get k = v := by
  simp [SharedStore.get, SharedStore.set, lookupEntry]

/-- Lookup in an entry list that holds no entry for the key returns
null. -/
theorem lookupEntry_eq_none (k : String) :
    ∀ es : List (String × Value), (∀ p ∈ es, p.1 ≠ k) → lookupEntry es k = .none
  | [], _ => rfl
  | (k2, v) :: rest, h => by
    have hk : k2 ≠ k := h (k2, v) (by simp)
    simp only [lookupEntry, if_neg hk]
    exact lookupEntry_eq_none k rest (fun p hp => h p (by simp [hp]))

/-- One atomic append extends the list stored under the key by exactly
the appended value. -/
theorem SharedStore.listAt_atomicAppend (s : SharedStore) (k : String) (v : Value) :
    (s.atomicAppend k v).listAt k = s.listAt k ++ [v] := by
  cases h : s.get k <;>
    simp [SharedStore.atomicAppend, SharedStore.listAt, h, SharedStore.get_set_self]

/-- A sequence of atomic appends driven by a schedule extends the list
under the key by the scheduled contributions, in schedule order. -/
theorem listAt_runParallelBatchAppends (k : String) (contribs : List Value) :
    ∀ (sched : List Nat) (s : SharedStore),
      (runParallelBatchAppends k contribs sched s).listAt k
        = s.listAt k ++ sched.map (fun i => contribs.getD i .none) := by
  intro sched
  induction sched with
  | nil => intro s; simp [runParallelBatchAppends]
  | cons i rest ih =>
    intro s
    have hstep : runParallelBatchAppends k contribs (i :: rest) s
        = runParallelBatchAppends k contribs rest (s.atomicAppend k (contribs.getD i .none)) := rfl
    rw [hstep, ih, SharedStore.listAt_atomicAppend]
    simp

/-- Indexing a list at every position in order rebuilds the list. -/
theorem map_getD_range {α : Type} (d : α) :
    ∀ l : List α, (List.range l.length).map (fun i => l.getD i d) = l
  | [] => rfl
  | a :: l => by
    rw [List.length_cons, List.range_succ_eq_map]
    simp only [List.map_cons, List.map_map]
    rw [show ((fun i => (a :: l).getD i d) ∘ Nat.succ) = (fun i => l.getD i d) from rfl]
    rw [map_getD_range d l]
    rfl

/-!  Claim theorems.  -/

/-- C2: in the two-node chain of examples/python/simple_flow.py where
InputNode prepares the string Hello World with an exclamation mark,
uppercases it and stores it under key uppercase, and its successor
ProcessNode reads that key, appends three exclamation marks and stores
the result under key result, a Flow run over an initially empty Shared
Store ends with get of key result equal to the string HELLO WORLD
followed by four exclamation marks. -/
theorem simple_flow_result :
    ((runFlow simpleFlowChain [] 10 SharedStore.empty).1).get "result"
      = .str "HELLO WORLD!!!!" := by rfl

/-- C4: for every store, key and value of the supported dynamic value
type, get after set returns a value equal to the one written, and when
the same key is written twice the last write wins. -/
theorem get_after_set_roundtrip (s : SharedStore) (k : String) (v : Value) :
    (s.set k v).get k = v ∧ ∀ v0 : Value, ((s.set k v0).set k v).get k = v :=
  ⟨SharedStore.get_set_self s k v, fun _ => SharedStore.get_set_self _ k v⟩

/-- C5: for every key that has never been set in a store, get on that
key returns null; get is a total function, so it never raises. -/
theorem get_never_set_returns_null (s : SharedStore) (k : String)
    (h : ∀ p ∈ s.entries, p.1 ≠ k) : s.get k = .none :=
  lookupEntry_eq_none k s.entries h

/-- Witness for C5 at a concrete input: the key non_existent was never
set in the empty store and reads as null. -/
theorem get_never_set_returns_null_witness :
    SharedStore.empty.get "non_existent" = .none :=
  get_never_set_returns_null SharedStore.empty "non_existent" (by simp [SharedStore.empty])

/-- C9: the inherited stage defaults are: prepare returns null, compute
is the identity, finalize performs no store mutation and returns the
default action; consequently a node overriding only its prepare stage,
as the batch-preparation node of examples/python/batch_flow.py does,
still runs through the full three-stage contract, leaving the store
unchanged and yielding the default action. -/
theorem default_stage_behavior :
    (∀ (s : SharedStore) (p : Params), defaultPrep s p = .none)
    ∧ (∀ v : Value, defaultExec v = v)
    ∧ (∀ (s : SharedStore) (p e : Value), defaultPost s p e = (s, some "default"))
    ∧ (∀ (f : SharedStore → Params → Value) (succ : List (String × Nat))
        (params : Params) (s : SharedStore),
        runNodeStages { prep := f, successors := succ } params s = (s, some "default")) :=
  ⟨fun _ _ => rfl, fun _ => rfl, fun _ _ _ => rfl, fun _ _ _ _ => rfl⟩

/-- C8: add_successor registers the given node as a successor of the
receiver under the given action and returns the given node, for every
pair of nodes and every action including the default one used by the
shift operator form, so a chain of default-action registrations
evaluates to its right-most node. -/
theorem add_successor_registers_and_returns (w : Wiring) (a b : Nat) (act : String) :
    (addSuccessor w a b act).2 = b
    ∧ wiringLookup (addSuccessor w a b act).1.edges a act = some b
    ∧ ∀ rest : List Nat, (chainDefault w a (rest ++ [b])).2 = b := by
  refine ⟨rfl, ?_, ?_⟩
  · simp [addSuccessor, wiringLookup]
  · intro rest
    unfold chainDefault
    rw [List.foldl_append]
    rfl

/-- C10: the minllm package imports exactly the eleven engine names
from its compiled core and lists exactly the same eleven in its export
list; SharedStore and the conditional-transition helper, both of which
the sibling MinLLM package requests from minllm and the first of which
the basic test suite also imports, are not among them. -/
theorem minllm_export_surface :
    minllm_imported_names = minllm_all
    ∧ minllm_all.length = 11
    ∧ "SharedStore" ∉ minllm_imported_names
    ∧ "_ConditionalTransition" ∉ minllm_imported_names
    ∧ "SharedStore" ∉ minllm_all
    ∧ "_ConditionalTransition" ∉ minllm_all
    ∧ "SharedStore" ∈ MinLLM_requested_names
    ∧ "_ConditionalTransition" ∈ MinLLM_requested_names
    ∧ "SharedStore" ∈ test_basic_imported_names := by decide

/-- C6: whenever the finalize stage of the current node yields an
action that has no matching successor — in particular for every node
with zero registered successors, whatever action it returns — the flow
run terminates right after that node's finalize, returning normally
with the store as that finalize left it and the action as the run
result. -/
theorem routing_miss_terminates (g : List FlowNode) (params : Params)
    (fuel idx : Nat) (s : SharedStore) (n : FlowNode) (act : String)
    (hn : g[idx]? = some n)
    (hact : (runNodeStages n params s).2 = some act)
    (hmiss : n.successors = [] ∨ lookupSuccessor n.successors act = Option.none) :
    runFlowFrom g params (fuel + 1) idx s = ((runNodeStages n params s).1, some act) := by
  have hmiss2 : lookupSuccessor n.successors act = Option.none := by
    cases hmiss with
    | inl h => rw [h]; rfl
    | inr h => exact h
  simp [runFlowFrom, hn, hact, hmiss2]

/-- Witness for C6 at a concrete input: a one-node graph whose node has
zero successors and whose default finalize returns the default action;
the run terminates after that node with the default action as result. -/
theorem routing_miss_terminates_witness :
    runFlowFrom [({} : FlowNode)] [] 1 0 SharedStore.empty
      = ((runNodeStages {} [] SharedStore.empty).1, some "default") :=
  routing_miss_terminates [{}] [] 0 0 SharedStore.empty {} "default" rfl rfl (Or.inl rfl)

/-- C3: the Batch Flow of the claim, whose batch-preparation node
yields the three parameter mappings for apple, banana and grape and
whose processing node formats each item and appends the formatted
string to the shared results list, ends over one shared store with a
final aggregate holding exactly the three formatted strings, each
present exactly once. -/
theorem batch_flow_aggregate :
    (runBatchFlow asyncBatchChain [] 10 SharedStore.empty).listAt "results"
      = [.str "Processed apple", .str "Processed banana", .str "Processed grape"]
    ∧ ((runBatchFlow asyncBatchChain [] 10 SharedStore.empty).listAt "results").length = 3
    ∧ ((runBatchFlow asyncBatchChain [] 10 SharedStore.empty).listAt "results").count
        (.str "Processed apple") = 1
    ∧ ((runBatchFlow asyncBatchChain [] 10 SharedStore.empty).listAt "results").count
        (.str "Processed banana") = 1
    ∧ ((runBatchFlow asyncBatchChain [] 10 SharedStore.empty).listAt "results").count
        (.str "Processed grape") = 1 :=
  ⟨rfl, rfl, rfl, rfl, rfl⟩

/-- C1: for every batch of contributions and every complete schedule of
the per-item tasks — any permutation of the item indices, covering
every interleaving the scheduler can produce once each finalize appends
through the atomic append primitive — a parallel batch run over a store
whose target list starts empty ends with that list a permutation of the
contributions: exactly N entries, and any contribution that occurs once
in the batch is present exactly once. -/
theorem parallel_batch_append_exact (k : String) (contribs : List Value)
    (sched : List Nat) (s : SharedStore)
    (hfresh : s.listAt k = [])
    (hperm : sched.Perm (List.range contribs.length)) :
    ((runParallelBatchAppends k contribs sched s).listAt k).Perm contribs
    ∧ ((runParallelBatchAppends k contribs sched s).listAt k).length = contribs.length
    ∧ ∀ v ∈ contribs, contribs.count v = 1
        → ((runParallelBatchAppends k contribs sched s).listAt k).count v = 1 := by
  have hrun : (runParallelBatchAppends k contribs sched s).listAt k
      = sched.map (fun i => contribs.getD i .none) := by
    rw [listAt_runParallelBatchAppends, hfresh, List.nil_append]
  have hp : ((runParallelBatchAppends k contribs sched s).listAt k).Perm contribs := by
    rw [hrun]
    have hm := hperm.map (fun i => contribs.getD i .none)
    rwa [map_getD_range] at hm
  exact ⟨hp, hp.length_eq, fun v _ h1 => by rw [hp.count_eq v, h1]⟩

/-- Witness for C1 at a concrete input: three contributions appended
under the schedule that runs item 2 first, then item 0, then item 1;
the final list is a permutation of the batch, has three entries, and
holds each distinct contribution exactly once. -/
theorem parallel_batch_append_exact_witness :
    ((runParallelBatchAppends "out" [Value.str "a", Value.str "b", Value.str "c"]
        [2, 0, 1] SharedStore.empty).listAt "out").Perm
      [Value.str "a", Value.str "b", Value.str "c"]
    ∧ ((runParallelBatchAppends "out" [Value.str "a", Value.str "b", Value.str "c"]
        [2, 0, 1] SharedStore.empty).listAt "out").length
      = [Value.str "a", Value.str "b", Value.str "c"].length
    ∧ ∀ v ∈ [Value.str "a", Value.str "b", Value.str "c"],
        [Value.str "a", Value.str "b", Value.str "c"].count v = 1
        → ((runParallelBatchAppends "out" [Value.str "a", Value.str "b", Value.str "c"]
            [2, 0, 1] SharedStore.empty).listAt "out").count v = 1 :=
  parallel_batch_append_exact "out" [Value.str "a", Value.str "b", Value.str "c"]
    [2, 0, 1] SharedStore.empty rfl (by decide)

/-- C7: an Async Flow run over async nodes whose stages carry the same
data logic as their synchronous counterparts, with suspension modelled
by per-stage delays, leaves exactly the same store contents and run
result as the synchronous Flow over the erased nodes, for every graph,
params, fuel, start index, initial store and initial clock: suspension
alters only the accumulated time. -/
theorem async_flow_matches_sync_flow (g : List AsyncFlowNode) (params : Params) :
    ∀ (fuel idx : Nat) (s : SharedStore) (t : Nat),
      (runAsyncFlowFrom g params fuel idx s t).1
        = runFlowFrom (g.map AsyncFlowNode.toSync) params fuel idx s := by
  intro fuel
  induction fuel with
  | zero => intro idx s t; rfl
  | succ fuel ih =>
    intro idx s t
    simp only [runAsyncFlowFrom, runFlowFrom, List.getElem?_map]
    cases hn : g[idx]? with
    | none => rfl
    | some n =>
      simp only [Option.map_some']
      have hr : (runAsyncNodeStages n params s).1
          = runNodeStages n.toSync params s := rfl
      cases hact : (runNodeStages n.toSync params s).2 with
      | none =>
        simp only [hr, hact]
      | some act =>
        simp only [hr, hact]
        cases hsucc : lookupSuccessor n.successors act with
        | none => simp only [AsyncFlowNode.toSync, hsucc]
        | some nxt =>
          simp only [AsyncFlowNode.toSync, hsucc]
          exact ih nxt _ _

end MinLLM
